import Mathlib

/-!
Verification development for the transport core of the hoprnet repository.

The development shallowly embeds the peer registry ("Network"), the health
classifier, the peer-ping scheduler query, and the transport facade
(send_message, new_session, and the incoming-packet tag demultiplexer)
from:

  src/transport/network/src/network.rs
  src/transport/api/src/lib.rs
  src/transport/api/src/constants.rs

Modelling conventions:

* Rust f64 values (qualities, backoffs, wall-clock instants, durations in
  seconds) are modelled as rationals.  The only f64 operation the embedded
  code uses that is not exact rational arithmetic is "powf"; it is kept as
  an explicit function parameter "pw : Rat -> Rat -> Rat" of every
  operation that calls it, so every theorem quantifies over it.  Concrete
  evaluations instantiate it with "powId" below, which agrees with IEEE-754
  "powf" whenever the exponent is 1 (pow(x, 1.0) = x exactly), and the
  concrete configurations used there set backoff_exponent = 1.
* "current_time()" is passed explicitly as a parameter "now".
* Peer identifiers are natural numbers; multiaddresses are natural numbers
  (their content is never inspected by the embedded code).
* The peer store (trait HoprDbPeersOperations of hopr_db_api, which is not
  under src/) is modelled as a list of peer records, with the operations
  modelled from the spec's PeerStore interface description.
* Fallible Rust functions returning Result are modelled with Except.
-/

namespace HoprSpec

abbrev PeerId := Nat

/-- Provenance tag of a peer record (spec section 3; the enum itself lives in
hopr_db_api which is not under src/). -/
inductive PeerOrigin where
  | Initialization
  | IncomingConnection
  | OutgoingConnection
  | Dialed
  | NetworkRegistry
  | ManualPing
  | Testing
deriving DecidableEq, Repr

/-- Peer record, one per known non-self peer.  Modelled from the spec:
PeerStatus lives in hopr_db_api (not under src/); fields follow spec
section 3 (PeerRecord).  The pair-shaped id of the Rust code ("entry.id.1"
is the PeerId) is collapsed to the PeerId itself.  The quality sliding
window is collapsed to the current quality value, following the spec's
probe-outcome table, in which update_quality(x) stores x and get_quality()
reads it back. -/
structure PeerStatus where
  id : PeerId
  origin : PeerOrigin
  multiaddresses : List Nat
  quality : Rat
  heartbeats_sent : Nat
  heartbeats_succeeded : Nat
  last_seen : Rat
  last_seen_latency : Rat
  backoff : Rat
  ignored : Option Rat
  peer_version : Option String
deriving DecidableEq, Repr

/-- Modelled from the spec: PeerStatus::new(id, origin, quality, window) of
hopr_db_api; remaining fields start at zero/empty defaults. -/
def PeerStatus.mkNew (id : PeerId) (origin : PeerOrigin) (quality : Rat) : PeerStatus :=
  { id := id
    origin := origin
    multiaddresses := []
    quality := quality
    heartbeats_sent := 0
    heartbeats_succeeded := 0
    last_seen := 0
    last_seen_latency := 0
    backoff := 0
    ignored := none
    peer_version := none }

/-- Network errors (crate::errors of the network crate; the variant used by
network.rs is DisallowedOperationOnOwnPeerIdError). -/
inductive NetworkingError where
  | DisallowedOperationOnOwnPeerIdError
  | DbError
deriving DecidableEq, Repr

/-- Events generated by the Network object (network.rs lines 57-61). -/
inductive NetworkTriggeredEvent where
  | CloseConnection (peer : PeerId)
  | UpdateQuality (peer : PeerId) (quality : Rat)
deriving DecidableEq, Repr

/-- Network health colors (network.rs lines 40-52). -/
inductive Health where
  | Unknown
  | Red
  | Orange
  | Yellow
  | Green
deriving DecidableEq, Repr

/-- Aggregated peer statistics snapshot (hopr_db_api Stats; fields as used by
health_from_stats in network.rs and described in spec section 4.3). -/
structure Stats where
  good_quality_public : Nat
  bad_quality_public : Nat
  good_quality_non_public : Nat
  bad_quality_non_public : Nat
deriving DecidableEq, Repr

/-- Modelled from the spec: NetworkConfig lives in the network crate's
config.rs, which is not under src/; fields follow spec section 6
(Configuration) and the uses in network.rs.  Durations and thresholds are
rationals (seconds for durations). -/
structure NetworkConfig where
  quality_step : Rat
  quality_bad_threshold : Rat
  quality_offline_threshold : Rat
  quality_avg_window_size : Nat
  backoff_min : Rat
  backoff_max : Rat
  backoff_exponent : Rat
  min_delay : Rat
  max_delay : Rat
  ignore_timeframe : Rat
deriving DecidableEq, Repr

/-- The network registry state (network.rs lines 84-96); the peer store
handle "db" is modelled as the list of stored records. -/
structure Network where
  me : PeerId
  me_addresses : List Nat
  am_i_public : Bool
  cfg : NetworkConfig
  db : List PeerStatus
deriving DecidableEq, Repr

/-- SystemTime saturating_sub: clamps a negative difference to zero. -/
def satSub (a b : Rat) : Rat := max 0 (a - b)

/-- Modelled from the spec: peer-store lookup (get_network_peer): the first
record keyed by the given peer id. -/
def getNetworkPeer : List PeerStatus → PeerId → Option PeerStatus
  | [], _ => none
  | x :: xs, peer => if x.id = peer then some x else getNetworkPeer xs peer

/-- Modelled from the spec: peer-store record update by key
(update_network_peer): replaces the record with the same id. -/
def updateNetworkPeer (db : List PeerStatus) (e : PeerStatus) : List PeerStatus :=
  db.map (fun x => if x.id = e.id then e else x)

/-- Modelled from the spec: peer-store insert (add_network_peer): stores a
fresh record with the given origin, addresses, initial quality 0 and the
backoff value passed by the caller. -/
def addNetworkPeer (db : List PeerStatus) (peer : PeerId) (origin : PeerOrigin)
    (mas : List Nat) (backoff : Rat) : List PeerStatus :=
  db ++ [{ PeerStatus.mkNew peer origin 0 with multiaddresses := mas, backoff := backoff }]

/-- Modelled from the spec: peer-store delete (remove_network_peer). -/
def removeNetworkPeer (db : List PeerStatus) (peer : PeerId) : List PeerStatus :=
  db.filter (fun x => decide (x.id ≠ peer))

/-- Calculate the health factor for network from the available stats
(network.rs lines 64-80). -/
def health_from_stats (stats : Stats) (is_public : Bool) : Health :=
  let health := Health.Red
  let health := if stats.bad_quality_public > 0 then Health.Orange else health
  if stats.good_quality_public > 0 then
    if is_public || stats.good_quality_non_public > 0 then Health.Green else Health.Yellow
  else health

namespace Network

/-- Network::new (network.rs lines 102-129).  The constructor panics when
quality_offline_threshold < quality_bad_threshold; the panic is modelled as
none.  Note that am_i_public is hard-coded to true. -/
def new (my_peer_id : PeerId) (my_multiaddresses : List Nat) (cfg : NetworkConfig)
    (db : List PeerStatus) : Option Network :=
  if cfg.quality_offline_threshold < cfg.quality_bad_threshold then
    none
  else
    some { me := my_peer_id
           me_addresses := my_multiaddresses
           am_i_public := true
           cfg := cfg
           db := db }

/-- Network::should_still_be_ignored (network.rs lines 342-346). -/
def should_still_be_ignored (n : Network) (now : Rat) (peer : PeerStatus) : Bool :=
  match peer.ignored with
  | some t => satSub now t < n.cfg.ignore_timeframe
  | none => false

/-- Network::has (network.rs lines 132-138). -/
def has (n : Network) (now : Rat) (peer : PeerId) : Bool :=
  decide (peer = n.me) ||
    (match getNetworkPeer n.db peer with
     | some peer_status => !(n.should_still_be_ignored now peer_status)
     | none => false)

/-- Network::add (network.rs lines 143-181).  The HashSet round-trip used to
deduplicate multiaddresses is modelled with List.dedup. -/
def add (n : Network) (now : Rat) (peer : PeerId) (origin : PeerOrigin)
    (addrs : List Nat) : Except NetworkingError Network :=
  if peer = n.me then
    .error .DisallowedOperationOnOwnPeerIdError
  else
    match getNetworkPeer n.db peer with
    | some peer_status =>
        if ¬ n.should_still_be_ignored now peer_status then
          let peer_status :=
            { peer_status with
                ignored := none
                multiaddresses := (peer_status.multiaddresses ++ addrs).dedup }
          .ok { n with db := updateNetworkPeer n.db peer_status }
        else
          .ok n
    | none =>
        .ok { n with db := addNetworkPeer n.db peer origin addrs n.cfg.backoff_exponent }

/-- Network::get (network.rs lines 183-197). -/
def get (n : Network) (now : Rat) (peer : PeerId) :
    Except NetworkingError (Option PeerStatus) :=
  if peer = n.me then
    .ok (some { PeerStatus.mkNew peer .Initialization 0 with
                  multiaddresses := n.me_addresses })
  else
    .ok ((getNetworkPeer n.db peer).filter
          (fun peer_status => ¬ n.should_still_be_ignored now peer_status))

/-- Network::remove (network.rs lines 200-214). -/
def remove (n : Network) (peer : PeerId) : Except NetworkingError Network :=
  if peer = n.me then
    .error .DisallowedOperationOnOwnPeerIdError
  else
    .ok { n with db := removeNetworkPeer n.db peer }

/-- Network::update (network.rs lines 217-268).  The probe outcome
"ping_result : Option Rat" models Result of latency and unit; "pw" models
f64 powf.  Note the early return of CloseConnection happens before the
record is written back to the store. -/
def update (pw : Rat → Rat → Rat) (n : Network) (now : Rat) (peer : PeerId)
    (ping_result : Option Rat) (version : Option String) :
    Except NetworkingError (Network × Option NetworkTriggeredEvent) :=
  if peer = n.me then
    .error .DisallowedOperationOnOwnPeerIdError
  else
    match getNetworkPeer n.db peer with
    | some entry =>
        let entry := if ¬ n.should_still_be_ignored now entry then
            { entry with ignored := none } else entry
        let entry := { entry with
            heartbeats_sent := entry.heartbeats_sent + 1
            peer_version := version }
        match ping_result with
        | some latency =>
            let entry := { entry with
                last_seen := now
                last_seen_latency := latency
                heartbeats_succeeded := entry.heartbeats_succeeded + 1
                backoff := n.cfg.backoff_min
                quality := min 1 (entry.quality + n.cfg.quality_step) }
            .ok ({ n with db := updateNetworkPeer n.db entry },
                 some (.UpdateQuality entry.id entry.quality))
        | none =>
            let entry := { entry with
                backoff := max n.cfg.backoff_max (pw entry.backoff n.cfg.backoff_exponent)
                quality := max 0 (entry.quality - n.cfg.quality_step) }
            if entry.quality < n.cfg.quality_step / 2 then
              .ok (n, some (.CloseConnection entry.id))
            else
              let entry := if entry.quality < n.cfg.quality_bad_threshold then
                  { entry with ignored := some now } else entry
              .ok ({ n with db := updateNetworkPeer n.db entry },
                   some (.UpdateQuality entry.id entry.quality))
    | none =>
        .ok (n, none)

/-- Network::health (network.rs lines 271-277): the stats query result is
passed in; a failed query yields Unknown. -/
def health (n : Network) (stats_result : Except NetworkingError Stats) : Health :=
  match stats_result with
  | .ok stats => health_from_stats stats n.am_i_public
  | .error _ => Health.Unknown

/-- Network::peer_filter (network.rs lines 298-306): streaming filter-map over
all stored records. -/
def peer_filter (n : Network) (f : PeerStatus → Option α) : List α :=
  n.db.filterMap f

/-- Rust "as u32" cast of a (nonnegative-or-not) f64 value: truncation toward
zero, saturating at the u32 bounds. -/
def castU32 (q : Rat) : Nat :=
  if q < 0 then 0 else min ⌊q⌋.toNat (2 ^ 32 - 1)

/-- The ping-delay actually computed by find_peers_to_ping (network.rs lines
319-320): the powf result is cast to u32 before the Duration multiplication. -/
def pingDelay (pw : Rat → Rat → Rat) (cfg : NetworkConfig) (v : PeerStatus) : Rat :=
  min (cfg.min_delay * (castU32 (pw v.backoff cfg.backoff_exponent) : Rat)) cfg.max_delay

/-- The record ordering used by the final sort of find_peers_to_ping. -/
def lastSeenLE (a b : PeerStatus) : Prop := a.last_seen ≤ b.last_seen

instance : DecidableRel lastSeenLE := fun _ _ => inferInstanceAs (Decidable (_ ≤ _))

instance : IsTotal PeerStatus lastSeenLE := ⟨fun a b => le_total a.last_seen b.last_seen⟩

instance : IsTrans PeerStatus lastSeenLE := ⟨fun _ _ _ h h' => le_trans h h'⟩

/-- The sorted record list built by find_peers_to_ping before projecting ids
(network.rs lines 308-337).  The store query uses the selector
with_last_seen_lte(threshold); the comparator of the final sort orders
records by ascending last_seen (it never returns Equal, so the order of
records with equal last_seen is left unspecified by Rust; insertion sort by
the non-strict order is one of its admissible outcomes). -/
def peersToPingRecords (pw : Rat → Rat → Rat) (n : Network) (threshold : Rat) :
    List PeerStatus :=
  let stream := n.db.filter (fun v => decide (v.last_seen ≤ threshold))
  let data := stream.filter
    (fun v => decide (v.id ≠ n.me) && decide (v.last_seen + pingDelay pw n.cfg v < threshold))
  data.insertionSort lastSeenLE

/-- Network::find_peers_to_ping (network.rs lines 308-340). -/
def find_peers_to_ping (pw : Rat → Rat → Rat) (n : Network) (threshold : Rat) :
    List PeerId :=
  (peersToPingRecords pw n threshold).map (fun peer => peer.id)

end Network

/-- One call of Network::update, as issued by the probing machinery. -/
structure UpdateCall where
  now : Rat
  peer : PeerId
  ping_result : Option Rat
  version : Option String

/-- The state reached after one Network::update call; a failed call leaves
the state untouched (the Rust method returns the error before mutating). -/
def applyUpdate (pw : Rat → Rat → Rat) (n : Network) (u : UpdateCall) : Network :=
  match Network.update pw n u.now u.peer u.ping_result u.version with
  | .ok (n', _) => n'
  | .error _ => n

/-- The state reached after a sequence of Network::update calls. -/
def applyUpdates (pw : Rat → Rat → Rat) (n : Network) (us : List UpdateCall) : Network :=
  us.foldl (applyUpdate pw) n

/-! Transport facade (src/transport/api/src/lib.rs, constants.rs). -/

/-- HoprTransport::network_connected_peers (lib.rs lines 715-717): the ids of
all stored peer records. -/
def network_connected_peers (n : Network) : List PeerId :=
  n.peer_filter (fun peer => some peer.id)

/-- Reserved tag upper limits (constants.rs). -/
def RESERVED_SUBPROTOCOL_TAG_UPPER_LIMIT : Nat := 16

def RESERVED_SESSION_TAG_UPPER_LIMIT : Nat := 1024

/-- Transport errors (the api crate's error type; lib.rs constructs only the
Api variant on the embedded paths). -/
inductive HoprTransportError where
  | Api (msg : String)
  | Timeout
  | Other
deriving DecidableEq, Repr

/-- Application-level packet as it leaves the protocol stack
(hopr_internal_types ApplicationData: an optional u16 tag and the
plaintext payload). -/
structure ApplicationData where
  application_tag : Option Nat
  plain_text : List Nat
deriving DecidableEq, Repr

/-- Session identifier: a tag and the counterparty peer
(hopr_transport_session SessionId, as used by lib.rs). -/
structure SessionId where
  tag : Nat
  peer : PeerId
deriving DecidableEq, Repr

/-- The tail of HoprTransport::send_message after the reserved-tag guard
(lib.rs lines 557-578): the payload-size guard, the ApplicationData
construction, the path resolution, the write-once sender lookup, and the
hand-off of the packet to the sender.  The question-mark propagation of
Rust is written as explicit match on the Except values. -/
def send_message_rest (payload_size : Nat)
    (mk_app_data : Option Nat → List Nat → Except HoprTransportError ApplicationData)
    (resolve : Except HoprTransportError Nat)
    (sender_ready : Bool)
    (msg : List Nat) (application_tag : Option Nat) :
    Except HoprTransportError (ApplicationData × Nat) :=
  if msg.length > payload_size then
    .error (.Api ("Message exceeds the maximum allowed size of "
      ++ toString payload_size ++ " bytes"))
  else
    match mk_app_data application_tag msg with
    | .error e => .error e
    | .ok app_data =>
        match resolve with
        | .error e => .error e
        | .ok path =>
            if sender_ready then
              .ok (app_data, path)
            else
              .error (.Api "send msg: failed because message processing is not yet initialized")

/-- HoprTransport::send_message (lib.rs lines 542-578).  The downstream
stages are parameters: mk_app_data models ApplicationData::new_from_owned,
resolve models the path planner, and sender_ready models whether the
write-once packet sender has been initialized.  A returned ".ok" value is
the packet actually handed to the packet sender together with its resolved
path; every ".error" return hands nothing to the sender. -/
def send_message (payload_size : Nat)
    (mk_app_data : Option Nat → List Nat → Except HoprTransportError ApplicationData)
    (resolve : Except HoprTransportError Nat)
    (sender_ready : Bool)
    (msg : List Nat) (application_tag : Option Nat) :
    Except HoprTransportError (ApplicationData × Nat) :=
  match application_tag with
  | some tag =>
      if tag < RESERVED_SESSION_TAG_UPPER_LIMIT then
        .error (.Api "Application tag must not be lower than 1024")
      else
        send_message_rest payload_size mk_app_data resolve sender_ready msg application_tag
  | none => send_message_rest payload_size mk_app_data resolve sender_ready msg application_tag

/-- The session-id selection loop of HoprTransport::new_session (lib.rs
lines 504-514): it iterates over all 100 random draws, remembering the
most recent draw whose SessionId is not already present in the session
directory; it never exits early.  The draws model the outputs of
hopr_crypto_random::random_integer(16, Some(1024)), which is not under
src/ and per the spec yields uniform values in the range 16 to 1023.
sessionIdStep is the loop body; generateSessionId folds it over the draws. -/
def sessionIdStep (occupied : SessionId → Bool) (peer : PeerId)
    (session_id : Option SessionId) (tag : Nat) : Option SessionId :=
  let id : SessionId := { tag := tag, peer := peer }
  if ¬ occupied id then some id else session_id

def generateSessionId (draws : List Nat) (occupied : SessionId → Bool)
    (peer : PeerId) : Option SessionId :=
  draws.foldl (sessionIdStep occupied peer) none

/-- HoprTransport::new_session (lib.rs lines 502-539), up to the returned
session id: a failed selection produces the Api error; a successful one
returns the chosen id (which lib.rs then inserts into the directory and
wraps into a Session). -/
def new_session (draws : List Nat) (occupied : SessionId → Bool) (peer : PeerId) :
    Except HoprTransportError SessionId :=
  match generateSessionId draws occupied peer with
  | some id => .ok id
  | none => .error (.Api "Failed to generate a non-occupied session ID")

/-- The session directory: SessionId to the list of data chunks delivered on
the session's inbound channel, oldest first (lib.rs "sessions" cache plus
the per-session unbounded channels). -/
abbrev SessionDir := List (SessionId × List (List Nat))

def SessionDir.lookup : SessionDir → SessionId → Option (List (List Nat))
  | [], _ => none
  | x :: xs, sid => if x.fst = sid then some x.snd else SessionDir.lookup xs sid

def SessionDir.enqueue (st : SessionDir) (sid : SessionId) (data : List Nat) :
    SessionDir :=
  st.map (fun x => if x.fst = sid then (x.fst, x.snd ++ [data]) else x)

/-- What the demultiplexer did with one packet. -/
structure DemuxResult where
  /-- Updated session directory. -/
  dir : SessionDir
  /-- Packet forwarded to the host output channel, when any. -/
  forwarded : Option ApplicationData
  /-- New sessions enqueued on the incoming-sessions channel, when any. -/
  new_sessions : List SessionId
deriving DecidableEq, Repr

/-- The incoming-packet demultiplexer body of the SessionsManagement task
(lib.rs lines 369-434), processing one ApplicationData item.  The
offchain-key-unwrap routine (hopr_transport_session, not under src/) is the
parameter "unwrap"; the incoming-sessions channel and the per-session
channels are modelled as always accepting (their failure branches only log
and drop). -/
def demux (unwrap : List Nat → Option (PeerId × List Nat))
    (st : SessionDir) (data : ApplicationData) : DemuxResult :=
  match data.application_tag with
  | some app_tag =>
      if app_tag ≤ RESERVED_SUBPROTOCOL_TAG_UPPER_LIMIT - 1 then
        { dir := st, forwarded := none, new_sessions := [] }
      else if app_tag ≤ RESERVED_SESSION_TAG_UPPER_LIMIT - 1 then
        match unwrap data.plain_text with
        | some (peer, data) =>
            let sid : SessionId := { tag := app_tag, peer := peer }
            match st.lookup sid with
            | some _ =>
                { dir := st.enqueue sid data, forwarded := none, new_sessions := [] }
            | none =>
                { dir := (sid, [data]) :: st, forwarded := none,
                  new_sessions := [sid] }
        | none => { dir := st, forwarded := none, new_sessions := [] }
      else
        { dir := st, forwarded := some data, new_sessions := [] }
  | none => { dir := st, forwarded := some data, new_sessions := [] }

/-! Auxiliary definitions used by concrete evaluations and by the spec-side
statements that the claims compare against. -/

/-- Concrete stand-in for f64 powf in closed evaluations: IEEE-754
pow(x, 1.0) equals x exactly for every x, so powId agrees with f64 powf
whenever the exponent argument is 1; all concrete configurations below set
backoff_exponent = 1. -/
def powId (b : Rat) (_e : Rat) : Rat := b

/-- The health classifier exactly as claim C4 words it (spec section 4.3,
including its Unknown clause for an all-zero snapshot): written from the
spec's words, to be compared with health_from_stats. -/
def healthClaimC4 (stats : Stats) (self_is_public : Bool) : Health :=
  if stats.good_quality_public > 0 ∧ (self_is_public ∨ stats.good_quality_non_public > 0) then
    .Green
  else if stats.good_quality_public > 0 then
    .Yellow
  else if stats.bad_quality_public > 0 then
    .Orange
  else if stats.good_quality_public + stats.bad_quality_public
      + stats.good_quality_non_public + stats.bad_quality_non_public > 0 then
    .Red
  else
    .Unknown

/-- The effective ping delay exactly as claim C6 words it (real-valued
product, no u32 truncation): written from the spec's words, to be compared
with Network.pingDelay. -/
def pingDelayClaimC6 (pw : Rat → Rat → Rat) (cfg : NetworkConfig) (v : PeerStatus) : Rat :=
  min (cfg.min_delay * pw v.backoff cfg.backoff_exponent) cfg.max_delay

/-! Concrete fixtures used by the closed evaluations below.  The
configuration sets backoff_exponent = 1, so powId is the exact f64 powf at
every point these evaluations touch; quality_step is 1/10 and the backoff
window is the 2 to 300 seconds range. -/

/-- A concrete network configuration (exponent 1, step 1/10, backoff range
2 to 300, delays 1 to 300 seconds, ignore timeframe 600 seconds). -/
def cfgEx : NetworkConfig :=
  { quality_step := 1/10
    quality_bad_threshold := 1/10
    quality_offline_threshold := 6/10
    quality_avg_window_size := 2
    backoff_min := 2
    backoff_max := 300
    backoff_exponent := 1
    min_delay := 1
    max_delay := 300
    ignore_timeframe := 600 }

/-- A stored peer record at full quality with backoff at the minimum. -/
def peerFull : PeerStatus :=
  { id := 1, origin := .Testing, multiaddresses := [], quality := 1,
    heartbeats_sent := 0, heartbeats_succeeded := 0, last_seen := 0,
    last_seen_latency := 0, backoff := 2, ignored := none, peer_version := none }

/-- A stored peer record at quality zero. -/
def peerZero : PeerStatus := { peerFull with quality := 0 }

/-- A stored peer record inside an active ignore timeframe. -/
def peerIgn : PeerStatus := { peerFull with ignored := some 0 }

/-- A stored peer record whose backoff is the non-integer 3/2. -/
def peerHalf : PeerStatus := { peerFull with backoff := 3/2 }

/-- Registry (self id 0) holding only peerFull. -/
def netFull : Network :=
  { me := 0, me_addresses := [], am_i_public := true, cfg := cfgEx, db := [peerFull] }

/-- Registry (self id 0) holding only peerZero. -/
def netZero : Network := { netFull with db := [peerZero] }

/-- Registry (self id 0) holding only peerIgn. -/
def netIgn : Network := { netFull with db := [peerIgn] }

/-- Registry (self id 0) holding only peerHalf. -/
def netHalf : Network := { netFull with db := [peerHalf] }

/-- Registry (self id 0) with an empty store. -/
def netEmpty : Network := { netFull with db := [] }

/-- The health classifier with the claim's Unknown clause replaced by Red
(the amended C4 classification): written from the amended claim's words, to
be compared with health_from_stats. -/
def healthAmendedC4 (stats : Stats) (self_is_public : Bool) : Health :=
  if stats.good_quality_public > 0 ∧ (self_is_public ∨ stats.good_quality_non_public > 0) then
    .Green
  else if stats.good_quality_public > 0 then
    .Yellow
  else if stats.bad_quality_public > 0 then
    .Orange
  else
    .Red

/-! Helper lemmas about the peer-store model. -/

theorem getNetworkPeer_id {db : List PeerStatus} {p : PeerId} {e : PeerStatus}
    (h : getNetworkPeer db p = some e) : e.id = p := by
  induction db with
  | nil => simp [getNetworkPeer] at h
  | cons x xs ih =>
    rw [getNetworkPeer] at h
    split at h
    · next hxp => injection h with hxe; exact hxe ▸ hxp
    · exact ih h

theorem getNetworkPeer_mem {db : List PeerStatus} {p : PeerId} {e : PeerStatus}
    (h : getNetworkPeer db p = some e) : e ∈ db := by
  induction db with
  | nil => simp [getNetworkPeer] at h
  | cons x xs ih =>
    rw [getNetworkPeer] at h
    split at h
    · injection h with hxe; exact hxe ▸ List.mem_cons_self x xs
    · exact List.mem_cons_of_mem _ (ih h)

theorem mem_updateNetworkPeer {db : List PeerStatus} {e a : PeerStatus}
    (h : a ∈ updateNetworkPeer db e) : a = e ∨ a ∈ db := by
  simp only [updateNetworkPeer, List.mem_map] at h
  obtain ⟨x, hx, hxa⟩ := h
  by_cases hid : x.id = e.id
  · left
    rw [if_pos hid] at hxa
    exact hxa.symm
  · right
    rw [if_neg hid] at hxa
    exact hxa ▸ hx

theorem getNetworkPeer_updateNetworkPeer {db : List PeerStatus} {p : PeerId}
    {e₀ : PeerStatus} (e : PeerStatus) (h : getNetworkPeer db p = some e₀)
    (hid : e.id = e₀.id) :
    getNetworkPeer (updateNetworkPeer db e) p = some e := by
  have hp : e₀.id = p := getNetworkPeer_id h
  induction db with
  | nil => simp [getNetworkPeer] at h
  | cons x xs ih =>
    rw [getNetworkPeer] at h
    simp only [updateNetworkPeer, List.map_cons]
    rw [getNetworkPeer]
    by_cases hx : x.id = p
    · rw [if_pos hx] at h
      injection h with hxe
      have hxid : x.id = e.id := by rw [hid, ← hxe]
      rw [if_pos hxid, if_pos (show e.id = p by rw [hid, hp])]
    · rw [if_neg hx] at h
      have hxid : ¬ x.id = e.id := by rw [hid, hp]; exact hx
      rw [if_neg hxid, if_neg hx]
      simpa [updateNetworkPeer] using ih h

/-! Characterization lemmas for Network.update. -/

theorem update_self (pw : Rat → Rat → Rat) (n : Network) (now : Rat)
    (res : Option Rat) (ver : Option String) :
    Network.update pw n now n.me res ver =
      .error .DisallowedOperationOnOwnPeerIdError := by
  rw [Network.update, if_pos rfl]

theorem update_unknown (pw : Rat → Rat → Rat) (n : Network) (now : Rat)
    (peer : PeerId) (res : Option Rat) (ver : Option String)
    (hme : peer ≠ n.me) (he : getNetworkPeer n.db peer = none) :
    Network.update pw n now peer res ver = .ok (n, none) := by
  cases res <;> simp [Network.update, hme, he]

/-- Full description of a successful-probe update on a known non-self peer:
the store gets exactly one rewritten record, whose fields follow network.rs
lines 227-263 (heartbeats_sent incremented, version stored, last_seen and
latency refreshed, heartbeats_succeeded incremented, backoff reset to the
minimum, quality stepped up with clamp at 1, ignore flag cleared unless the
ignore timeframe is still active). -/
theorem update_ok_char (pw : Rat → Rat → Rat) (n : Network) (now lat : Rat)
    (peer : PeerId) (ver : Option String) (e : PeerStatus)
    (hme : peer ≠ n.me) (he : getNetworkPeer n.db peer = some e) :
    ∃ e' : PeerStatus,
      Network.update pw n now peer (some lat) ver =
        .ok ({ n with db := updateNetworkPeer n.db e' },
             some (.UpdateQuality e.id (min 1 (e.quality + n.cfg.quality_step)))) ∧
      getNetworkPeer (updateNetworkPeer n.db e') peer = some e' ∧
      e'.id = e.id ∧
      e'.quality = min 1 (e.quality + n.cfg.quality_step) ∧
      e'.heartbeats_sent = e.heartbeats_sent + 1 ∧
      e'.heartbeats_succeeded = e.heartbeats_succeeded + 1 ∧
      e'.last_seen = now ∧
      e'.last_seen_latency = lat ∧
      e'.backoff = n.cfg.backoff_min ∧
      e'.peer_version = ver ∧
      e'.ignored = (if n.should_still_be_ignored now e = true then e.ignored else none) ∧
      e'.origin = e.origin ∧
      e'.multiaddresses = e.multiaddresses := by
  by_cases hig : n.should_still_be_ignored now e = true
  · refine
      ⟨{ e with
           heartbeats_sent := e.heartbeats_sent + 1,
           peer_version := ver,
           last_seen := now,
           last_seen_latency := lat,
           heartbeats_succeeded := e.heartbeats_succeeded + 1,
           backoff := n.cfg.backoff_min,
           quality := min 1 (e.quality + n.cfg.quality_step) },
       ?_, ?_, rfl, rfl, rfl, rfl, rfl, rfl, rfl, rfl, ?_, rfl, rfl⟩
    · simp [Network.update, hme, he, hig]
    · exact getNetworkPeer_updateNetworkPeer _ he rfl
    · rw [if_pos hig]
  · refine
      ⟨{ e with
           ignored := none,
           heartbeats_sent := e.heartbeats_sent + 1,
           peer_version := ver,
           last_seen := now,
           last_seen_latency := lat,
           heartbeats_succeeded := e.heartbeats_succeeded + 1,
           backoff := n.cfg.backoff_min,
           quality := min 1 (e.quality + n.cfg.quality_step) },
       ?_, ?_, rfl, rfl, rfl, rfl, rfl, rfl, rfl, rfl, ?_, rfl, rfl⟩
    · simp [Network.update, hme, he, hig]
    · exact getNetworkPeer_updateNetworkPeer _ he rfl
    · rw [if_neg hig]

/-- Full description of a failed-probe update on a known non-self peer
(network.rs lines 241-250): when the stepped-down quality falls below
quality_step / 2 the method returns CloseConnection and writes nothing
back; otherwise the store gets one rewritten record with the incremented
heartbeats_sent, the stored version, the stepped-down quality and the
backoff raised to max(backoff_max, powf(backoff, backoff_exponent)). -/
theorem update_err_char (pw : Rat → Rat → Rat) (n : Network) (now : Rat)
    (peer : PeerId) (ver : Option String) (e : PeerStatus)
    (hme : peer ≠ n.me) (he : getNetworkPeer n.db peer = some e) :
    (max 0 (e.quality - n.cfg.quality_step) < n.cfg.quality_step / 2 →
      Network.update pw n now peer none ver = .ok (n, some (.CloseConnection e.id))) ∧
    (¬ max 0 (e.quality - n.cfg.quality_step) < n.cfg.quality_step / 2 →
      ∃ e' : PeerStatus,
        Network.update pw n now peer none ver =
          .ok ({ n with db := updateNetworkPeer n.db e' },
               some (.UpdateQuality e.id (max 0 (e.quality - n.cfg.quality_step)))) ∧
        getNetworkPeer (updateNetworkPeer n.db e') peer = some e' ∧
        e'.id = e.id ∧
        e'.quality = max 0 (e.quality - n.cfg.quality_step) ∧
        e'.heartbeats_sent = e.heartbeats_sent + 1 ∧
        e'.heartbeats_succeeded = e.heartbeats_succeeded ∧
        e'.last_seen = e.last_seen ∧
        e'.last_seen_latency = e.last_seen_latency ∧
        e'.backoff = max n.cfg.backoff_max (pw e.backoff n.cfg.backoff_exponent) ∧
        e'.peer_version = ver) := by
  constructor
  · intro hcl
    by_cases hig : n.should_still_be_ignored now e = true <;>
      simp [Network.update, hme, he, hig, hcl]
  · intro hcl
    by_cases hig : n.should_still_be_ignored now e = true <;>
      by_cases hbad : max 0 (e.quality - n.cfg.quality_step) < n.cfg.quality_bad_threshold
    · refine
        ⟨{ e with
             heartbeats_sent := e.heartbeats_sent + 1,
             peer_version := ver,
             backoff := max n.cfg.backoff_max (pw e.backoff n.cfg.backoff_exponent),
             quality := max 0 (e.quality - n.cfg.quality_step),
             ignored := some now },
         ?_, getNetworkPeer_updateNetworkPeer _ he rfl,
         rfl, rfl, rfl, rfl, rfl, rfl, rfl, rfl⟩
      simp [Network.update, hme, he, hig, hcl, hbad]
    · refine
        ⟨{ e with
             heartbeats_sent := e.heartbeats_sent + 1,
             peer_version := ver,
             backoff := max n.cfg.backoff_max (pw e.backoff n.cfg.backoff_exponent),
             quality := max 0 (e.quality - n.cfg.quality_step) },
         ?_, getNetworkPeer_updateNetworkPeer _ he rfl,
         rfl, rfl, rfl, rfl, rfl, rfl, rfl, rfl⟩
      simp [Network.update, hme, he, hig, hcl, hbad]
    · refine
        ⟨{ e with
             heartbeats_sent := e.heartbeats_sent + 1,
             peer_version := ver,
             backoff := max n.cfg.backoff_max (pw e.backoff n.cfg.backoff_exponent),
             quality := max 0 (e.quality - n.cfg.quality_step),
             ignored := some now },
         ?_, getNetworkPeer_updateNetworkPeer _ he rfl,
         rfl, rfl, rfl, rfl, rfl, rfl, rfl, rfl⟩
      simp [Network.update, hme, he, hig, hcl, hbad]
    · refine
        ⟨{ e with
             heartbeats_sent := e.heartbeats_sent + 1,
             peer_version := ver,
             backoff := max n.cfg.backoff_max (pw e.backoff n.cfg.backoff_exponent),
             quality := max 0 (e.quality - n.cfg.quality_step),
             ignored := none },
         ?_, getNetworkPeer_updateNetworkPeer _ he rfl,
         rfl, rfl, rfl, rfl, rfl, rfl, rfl, rfl⟩
      simp [Network.update, hme, he, hig, hcl, hbad]

/-! Claim C4: the health classification. -/

/-- C4 counterexample: on the all-zero stats snapshot the code classifies
Red, while the claim (spec section 4.3) requires Unknown when no peers were
ever observed; health_from_stats never produces Unknown. -/
theorem c4_health_counterexample :
    health_from_stats ⟨0, 0, 0, 0⟩ true = Health.Red ∧
    healthClaimC4 ⟨0, 0, 0, 0⟩ true = Health.Unknown ∧
    Health.Red ≠ Health.Unknown :=
  ⟨rfl, rfl, by decide⟩

/-- C4 amended: health_from_stats is exactly the claimed pure classification
with the Unknown clause replaced by Red (Red also covers the all-zero
snapshot); Network.health applies it to the snapshot and the flag, and
returns Unknown only when the stats query itself fails. -/
theorem c4_health_amended (stats : Stats) (pub : Bool) :
    health_from_stats stats pub = healthAmendedC4 stats pub ∧
    (∀ n : Network, Network.health n (.ok stats) = health_from_stats stats n.am_i_public) ∧
    (∀ (n : Network) (err : NetworkingError),
      Network.health n (.error err) = Health.Unknown) := by
  refine ⟨?_, fun n => rfl, fun n err => rfl⟩
  by_cases h1 : 0 < stats.good_quality_public <;>
    by_cases h2 : pub = true <;>
      by_cases h3 : 0 < stats.good_quality_non_public <;>
        by_cases h4 : 0 < stats.bad_quality_public <;>
          simp [health_from_stats, healthAmendedC4, h1, h2, h3, h4,
            Nat.pos_iff_ne_zero, Bool.not_eq_true] at *

/-! Claim C10: the hard-coded public flag and the unreachability of Yellow. -/

/-- C10: every Network produced by Network::new has am_i_public set to true
(the constructor hard-codes it), hence its health is never Yellow, and any
snapshot with a good-quality public peer classifies Green. -/
theorem c10_public_never_yellow (my_peer_id : PeerId) (addrs : List Nat)
    (cfg : NetworkConfig) (db : List PeerStatus) (n : Network)
    (h : Network.new my_peer_id addrs cfg db = some n) :
    n.am_i_public = true ∧
    (∀ stats : Stats, Network.health n (.ok stats) ≠ Health.Yellow) ∧
    (∀ stats : Stats, 0 < stats.good_quality_public →
      Network.health n (.ok stats) = Health.Green) := by
  have hpub : n.am_i_public = true := by
    rw [Network.new] at h
    split at h
    · exact absurd h (by simp)
    · injection h with h'
      rw [← h']
  refine ⟨hpub, ?_, ?_⟩
  · intro stats
    by_cases h1 : 0 < stats.good_quality_public <;>
      by_cases h4 : 0 < stats.bad_quality_public <;>
        simp [Network.health, health_from_stats, hpub, h1, h4]
  · intro stats h1
    simp [Network.health, health_from_stats, hpub, h1]

/-- Closed witness for c10_public_never_yellow at a concrete construction. -/
theorem c10_public_never_yellow_witness :
    netEmpty.am_i_public = true ∧
    (∀ stats : Stats, Network.health netEmpty (.ok stats) ≠ Health.Yellow) ∧
    (∀ stats : Stats, 0 < stats.good_quality_public →
      Network.health netEmpty (.ok stats) = Health.Green) :=
  c10_public_never_yellow 0 [] cfgEx [] netEmpty (by norm_num [Network.new, cfgEx, netEmpty, netFull])

/-! Claim C7: the send_message guards. -/

/-- C7: send_message returns an Api error on any application tag below 1024
and on any payload longer than PAYLOAD_SIZE, and whenever it hands a packet
to the packet sender (the ".ok" outcome) neither guard was violated. -/
theorem c7_send_message_guards (payload_size : Nat)
    (mk_app_data : Option Nat → List Nat → Except HoprTransportError ApplicationData)
    (resolve : Except HoprTransportError Nat) (sender_ready : Bool)
    (msg : List Nat) (application_tag : Option Nat) :
    (∀ t, application_tag = some t → t < 1024 →
      send_message payload_size mk_app_data resolve sender_ready msg application_tag =
        .error (.Api "Application tag must not be lower than 1024")) ∧
    ((∀ t, application_tag = some t → 1024 ≤ t) → msg.length > payload_size →
      send_message payload_size mk_app_data resolve sender_ready msg application_tag =
        .error (.Api ("Message exceeds the maximum allowed size of "
          ++ toString payload_size ++ " bytes"))) ∧
    (∀ out, send_message payload_size mk_app_data resolve sender_ready msg application_tag
        = .ok out →
      (∀ t, application_tag = some t → 1024 ≤ t) ∧ msg.length ≤ payload_size) := by
  refine ⟨?_, ?_, ?_⟩
  · rintro t rfl ht
    simp [send_message, RESERVED_SESSION_TAG_UPPER_LIMIT, ht]
  · intro htag hlen
    cases happ : application_tag with
    | some t =>
        have h1024 : ¬ t < 1024 := not_lt.mpr (htag t happ)
        simp [send_message, RESERVED_SESSION_TAG_UPPER_LIMIT, h1024,
          send_message_rest, hlen]
    | none =>
        simp [send_message, send_message_rest, hlen]
  · intro out hok
    constructor
    · rintro t rfl
      by_contra hge
      push_neg at hge
      simp [send_message, RESERVED_SESSION_TAG_UPPER_LIMIT, hge] at hok
    · by_contra hlen
      push_neg at hlen
      cases happ : application_tag with
      | none =>
          rw [happ] at hok
          simp [send_message, send_message_rest, hlen] at hok
      | some t =>
          rw [happ] at hok
          by_cases hlt : t < 1024
          · simp [send_message, RESERVED_SESSION_TAG_UPPER_LIMIT, hlt] at hok
          · simp [send_message, RESERVED_SESSION_TAG_UPPER_LIMIT, hlt,
              send_message_rest, hlen] at hok

/-- Closed witness for c7_send_message_guards: a reserved tag (500) and an
oversized payload (501 bytes against size 500) are both rejected. -/
theorem c7_send_message_guards_witness :
    send_message 500 (fun tag msg => .ok ⟨tag, msg⟩) (.ok 0) true [7] (some 500) =
      .error (.Api "Application tag must not be lower than 1024") ∧
    send_message 500 (fun tag msg => .ok ⟨tag, msg⟩) (.ok 0) true
        (List.replicate 501 0) (some 2000) =
      .error (.Api ("Message exceeds the maximum allowed size of "
        ++ toString 500 ++ " bytes")) :=
  ⟨(c7_send_message_guards 500 (fun tag msg => .ok ⟨tag, msg⟩) (.ok 0) true
      [7] (some 500)).1 500 rfl (by norm_num),
   (c7_send_message_guards 500 (fun tag msg => .ok ⟨tag, msg⟩) (.ok 0) true
      (List.replicate 501 0) (some 2000)).2.1
     (fun t ht => by injection ht with h; omega)
     (by rw [List.length_replicate]; omega)⟩

/-! Claim C8: session-id selection. -/

/-- Behaviour of the session-id selection fold for an arbitrary accumulator:
it returns none exactly when it started from none and every draw is
occupied; it is the identity when every draw is occupied; and any some
result is either the accumulator or an unoccupied drawn id for the
requested peer. -/
theorem sessionIdStep_foldl_spec (occupied : SessionId → Bool) (peer : PeerId) :
    ∀ (draws : List Nat) (acc : Option SessionId),
      (draws.foldl (sessionIdStep occupied peer) acc = none →
        acc = none ∧ ∀ t ∈ draws, occupied ⟨t, peer⟩ = true) ∧
      ((∀ t ∈ draws, occupied ⟨t, peer⟩ = true) →
        draws.foldl (sessionIdStep occupied peer) acc = acc) ∧
      (∀ id, draws.foldl (sessionIdStep occupied peer) acc = some id →
        acc = some id ∨ (id.peer = peer ∧ occupied id = false ∧ id.tag ∈ draws)) := by
  intro draws
  induction draws with
  | nil => exact fun acc => ⟨fun h => ⟨h, by simp⟩, fun _ => rfl, fun id h => Or.inl h⟩
  | cons t ts ih =>
    intro acc
    by_cases hocc : occupied ⟨t, peer⟩ = true
    · have hstep : sessionIdStep occupied peer acc t = acc := by
        simp [sessionIdStep, hocc]
      refine ⟨?_, ?_, ?_⟩
      · intro h
        rw [List.foldl_cons, hstep] at h
        obtain ⟨h1, h2⟩ := (ih acc).1 h
        exact ⟨h1, by simpa [hocc] using h2⟩
      · intro hall
        rw [List.foldl_cons, hstep]
        exact (ih acc).2.1 (fun x hx => hall x (List.mem_cons_of_mem _ hx))
      · intro id h
        rw [List.foldl_cons, hstep] at h
        rcases (ih acc).2.2 id h with h' | ⟨hp, ho, hm⟩
        · exact Or.inl h'
        · exact Or.inr ⟨hp, ho, List.mem_cons_of_mem _ hm⟩
    · have hstep : sessionIdStep occupied peer acc t = some ⟨t, peer⟩ := by
        simp [sessionIdStep, hocc]
      refine ⟨?_, ?_, ?_⟩
      · intro h
        rw [List.foldl_cons, hstep] at h
        obtain ⟨h1, _⟩ := (ih (some ⟨t, peer⟩)).1 h
        exact absurd h1 (by simp)
      · intro hall
        exact absurd (hall t (List.mem_cons_self t ts)) hocc
      · intro id h
        rw [List.foldl_cons, hstep] at h
        rcases (ih (some ⟨t, peer⟩)).2.2 id h with h' | ⟨hp, ho, hm⟩
        · injection h' with h''
          refine Or.inr ?_
          rw [← h'']
          exact ⟨rfl, by simpa using hocc, List.mem_cons_self t ts⟩
        · exact Or.inr ⟨hp, ho, List.mem_cons_of_mem _ hm⟩

/-- C8: assuming each of the 100 draws lies in the session-tag range (the
contract of the uniform generator), every session id that new_session
returns carries an in-range tag that was unoccupied in the directory and
the requested peer; and the operation fails with the exact Api error
precisely when every draw collided with the directory. -/
theorem c8_new_session_tag (draws : List Nat) (occupied : SessionId → Bool)
    (peer : PeerId) (_hlen : draws.length = 100)
    (hrange : ∀ t ∈ draws, 16 ≤ t ∧ t < 1024) :
    (∀ id, new_session draws occupied peer = .ok id →
      16 ≤ id.tag ∧ id.tag < 1024 ∧ occupied id = false ∧ id.peer = peer) ∧
    (new_session draws occupied peer =
        .error (.Api "Failed to generate a non-occupied session ID") ↔
      ∀ t ∈ draws, occupied ⟨t, peer⟩ = true) := by
  obtain ⟨h1, h2, h3⟩ := sessionIdStep_foldl_spec occupied peer draws none
  constructor
  · intro id hid
    rw [new_session] at hid
    cases hgen : generateSessionId draws occupied peer with
    | none => rw [hgen] at hid; exact absurd hid (by simp)
    | some id' =>
        rw [hgen] at hid
        injection hid with hid'
        subst hid'
        rcases h3 id' hgen with hacc | ⟨hp, ho, hm⟩
        · exact absurd hacc (by simp)
        · obtain ⟨hlo, hhi⟩ := hrange id'.tag hm
          exact ⟨hlo, hhi, ho, hp⟩
  · constructor
    · intro herr
      rw [new_session] at herr
      cases hgen : generateSessionId draws occupied peer with
      | some id => rw [hgen] at herr; exact absurd herr (by simp)
      | none => exact (h1 hgen).2
    · intro hall
      rw [new_session]
      rw [show generateSessionId draws occupied peer = none from h2 hall]

/-- Closed witness for c8_new_session_tag: 100 draws of the tag 20 against
an empty directory. -/
theorem c8_new_session_tag_witness :
    (∀ id, new_session (List.replicate 100 20) (fun _ => false) 7 = .ok id →
      16 ≤ id.tag ∧ id.tag < 1024 ∧ (fun _ : SessionId => false) id = false ∧
        id.peer = 7) ∧
    (new_session (List.replicate 100 20) (fun _ => false) 7 =
        .error (.Api "Failed to generate a non-occupied session ID") ↔
      ∀ t ∈ List.replicate 100 20, (fun _ : SessionId => false) ⟨t, 7⟩ = true) :=
  c8_new_session_tag (List.replicate 100 20) (fun _ => false) 7 (by simp)
    (fun t ht => by simp at ht; omega)

/-! Claim C9: the incoming-packet tag demultiplexer. -/

/-- Enqueuing on a session appends the chunk to that session's inbound
queue and leaves its registration in place. -/
theorem SessionDir.lookup_enqueue (st : SessionDir) (sid : SessionId) (d : List Nat) :
    SessionDir.lookup (SessionDir.enqueue st sid d) sid =
      (SessionDir.lookup st sid).map (fun q => q ++ [d]) := by
  induction st with
  | nil => rfl
  | cons x xs ih =>
    by_cases hx : x.fst = sid
    · simp [SessionDir.enqueue, SessionDir.lookup, hx]
    · simp only [SessionDir.enqueue, List.map_cons, if_neg hx]
      rw [SessionDir.lookup, if_neg hx, SessionDir.lookup, if_neg hx]
      simpa [SessionDir.enqueue] using ih

/-- C9: the demultiplexer partitions packets by tag: no tag or a tag of at
least 1024 is forwarded to the host output channel; tags below 16 are
dropped; session-range tags are decoded and either appended to the matching
session's inbound queue or registered as exactly one new incoming session
holding the initial chunk; undecodable session packets are dropped. -/
theorem c9_demux_partition (unwrap : List Nat → Option (PeerId × List Nat))
    (st : SessionDir) (data : ApplicationData) :
    (data.application_tag = none →
      demux unwrap st data = ⟨st, some data, []⟩) ∧
    (∀ t, data.application_tag = some t → t < 16 →
      demux unwrap st data = ⟨st, none, []⟩) ∧
    (∀ t, data.application_tag = some t → 1024 ≤ t → t < 65536 →
      demux unwrap st data = ⟨st, some data, []⟩) ∧
    (∀ t, data.application_tag = some t → 16 ≤ t → t < 1024 →
      (unwrap data.plain_text = none → demux unwrap st data = ⟨st, none, []⟩) ∧
      (∀ peer d, unwrap data.plain_text = some (peer, d) →
        (∀ q, SessionDir.lookup st ⟨t, peer⟩ = some q →
          demux unwrap st data =
            ⟨SessionDir.enqueue st ⟨t, peer⟩ d, none, []⟩ ∧
          SessionDir.lookup (SessionDir.enqueue st ⟨t, peer⟩ d) ⟨t, peer⟩ =
            some (q ++ [d])) ∧
        (SessionDir.lookup st ⟨t, peer⟩ = none →
          demux unwrap st data = ⟨(⟨t, peer⟩, [d]) :: st, none, [⟨t, peer⟩]⟩ ∧
          SessionDir.lookup ((⟨t, peer⟩, [d]) :: st) ⟨t, peer⟩ = some [d]))) := by
  refine ⟨?_, ?_, ?_, ?_⟩
  · intro h
    simp [demux, h]
  · intro t h ht
    simp only [demux, h]
    rw [if_pos (show t ≤ RESERVED_SUBPROTOCOL_TAG_UPPER_LIMIT - 1 by
      simp [RESERVED_SUBPROTOCOL_TAG_UPPER_LIMIT]; omega)]
  · intro t h h1024 _h65536
    simp only [demux, h]
    rw [if_neg (show ¬ t ≤ RESERVED_SUBPROTOCOL_TAG_UPPER_LIMIT - 1 by
      simp [RESERVED_SUBPROTOCOL_TAG_UPPER_LIMIT]; omega)]
    rw [if_neg (show ¬ t ≤ RESERVED_SESSION_TAG_UPPER_LIMIT - 1 by
      simp [RESERVED_SESSION_TAG_UPPER_LIMIT]; omega)]
  · intro t h h16 h1024
    have hses : demux unwrap st data =
        match unwrap data.plain_text with
        | some (peer, d) =>
            let sid : SessionId := { tag := t, peer := peer }
            match SessionDir.lookup st sid with
            | some _ =>
                { dir := SessionDir.enqueue st sid d, forwarded := none,
                  new_sessions := [] }
            | none =>
                { dir := (sid, [d]) :: st, forwarded := none, new_sessions := [sid] }
        | none => { dir := st, forwarded := none, new_sessions := [] } := by
      simp only [demux, h]
      rw [if_neg (show ¬ t ≤ RESERVED_SUBPROTOCOL_TAG_UPPER_LIMIT - 1 by
        simp [RESERVED_SUBPROTOCOL_TAG_UPPER_LIMIT]; omega)]
      rw [if_pos (show t ≤ RESERVED_SESSION_TAG_UPPER_LIMIT - 1 by
        simp [RESERVED_SESSION_TAG_UPPER_LIMIT]; omega)]
    constructor
    · intro hu
      rw [hses, hu]
    · intro peer d hu
      constructor
      · intro q hq
        rw [hses, hu]
        refine ⟨by simp [hq], ?_⟩
        rw [SessionDir.lookup_enqueue, hq]
        rfl
      · intro hq
        rw [hses, hu]
        exact ⟨by simp [hq], by rw [SessionDir.lookup]; simp⟩

/-- Closed witness for c9_demux_partition on a concrete packet (tag 200)
against an empty directory. -/
theorem c9_demux_partition_witness :
    demux (fun pt => some (9, pt)) [] ⟨some 200, [170]⟩ =
      ⟨[(⟨200, 9⟩, [[170]])], none, [⟨200, 9⟩]⟩ ∧
    SessionDir.lookup [(⟨200, 9⟩, [[170]])] ⟨200, 9⟩ = some [[170]] :=
  (((c9_demux_partition (fun pt => some (9, pt)) [] ⟨some 200, [170]⟩).2.2.2
      200 rfl (by omega) (by omega)).2 9 [170] rfl).2 rfl

/-! Claim C2: the CloseConnection threshold. -/

/-- C2 counterexample: peer 1 is known at quality 0 in netZero; the first
Err update returns CloseConnection and leaves the state unchanged, and the
very next Err update (no recovery happened) returns CloseConnection again,
contradicting the claimed exactly-once behaviour. -/
theorem c2_close_counterexample :
    Network.update powId netZero 5 1 none none =
      .ok (netZero, some (.CloseConnection 1)) ∧
    Network.update powId netZero 6 1 none none =
      .ok (netZero, some (.CloseConnection 1)) := by
  constructor <;>
    norm_num [Network.update, Network.should_still_be_ignored, getNetworkPeer,
      netZero, netFull, peerZero, peerFull, cfgEx, powId]

/-- C2 amended: every Err update on a known non-self peer whose stepped-down
quality falls below quality_step / 2 returns CloseConnection(peer) and does
not modify the store at all (the record is not written back on this path),
so the event recurs on any further Err update until an Ok update raises the
stored quality. -/
theorem c2_close_amended (pw : Rat → Rat → Rat) (n : Network) (now : Rat)
    (peer : PeerId) (ver : Option String) (e : PeerStatus)
    (hme : peer ≠ n.me) (he : getNetworkPeer n.db peer = some e)
    (hq : max 0 (e.quality - n.cfg.quality_step) < n.cfg.quality_step / 2) :
    Network.update pw n now peer none ver = .ok (n, some (.CloseConnection peer)) := by
  have h := (update_err_char pw n now peer ver e hme he).1 hq
  rwa [getNetworkPeer_id he] at h

/-- Closed witness for c2_close_amended on netZero. -/
theorem c2_close_amended_witness :
    Network.update powId netZero 5 1 none none =
      .ok (netZero, some (.CloseConnection 1)) :=
  c2_close_amended powId netZero 5 1 none peerZero
    (by norm_num [netZero, netFull])
    (by norm_num [netZero, netFull, getNetworkPeer, peerZero, peerFull])
    (by norm_num [netZero, netFull, peerZero, peerFull, cfgEx])

/-! Claim C3: what an update persists. -/

/-- C3 counterexample: two concrete refutations.  First, an Err update on
the known non-self peer 1 of netZero hits the CloseConnection path, so the
stored heartbeats_sent stays 0 instead of being incremented.  Second, an Ok
update on the known non-self peer 1 of netIgn (whose ignore timeframe is
still active) persists the refreshed record, yet the subsequent get returns
none rather than the record. -/
theorem c3_update_counterexample :
    ((Network.update powId netZero 5 1 none none).toOption.bind
        (fun x => getNetworkPeer x.fst.db 1)).map (fun e => e.heartbeats_sent) =
      some 0 ∧
    (Network.update powId netIgn 5 1 (some (123/1000)) none).toOption.bind
        (fun x => (Network.get x.fst 5 1).toOption) = some none := by
  constructor
  · norm_num [Network.update, Network.should_still_be_ignored, getNetworkPeer,
      netZero, netFull, peerZero, peerFull, cfgEx, powId, Except.toOption]
  · norm_num [Network.update, Network.get, Network.should_still_be_ignored,
      getNetworkPeer, updateNetworkPeer, satSub, netIgn, netFull, peerIgn,
      peerFull, cfgEx, powId, Except.toOption, Option.filter]

/-- C3 amended: on a known non-self peer, every update that does not return
CloseConnection increments the stored heartbeats_sent by exactly one and
stores the supplied peer_version; an Ok(latency) update additionally sets
last_seen to now, last_seen_latency to the latency, increments
heartbeats_succeeded, resets backoff to backoff_min and steps quality up to
min(1, q + quality_step), all persisted in the stored record; a subsequent
get returns that record provided the peer was not inside an active ignore
timeframe. -/
theorem c3_update_amended (pw : Rat → Rat → Rat) (n : Network) (now lat : Rat)
    (peer : PeerId) (ver : Option String) (e : PeerStatus)
    (hme : peer ≠ n.me) (he : getNetworkPeer n.db peer = some e) :
    (∃ n', Network.update pw n now peer (some lat) ver =
        .ok (n', some (.UpdateQuality peer (min 1 (e.quality + n.cfg.quality_step)))) ∧
      ∃ e', getNetworkPeer n'.db peer = some e' ∧
        e'.heartbeats_sent = e.heartbeats_sent + 1 ∧
        e'.peer_version = ver ∧
        e'.last_seen = now ∧
        e'.last_seen_latency = lat ∧
        e'.heartbeats_succeeded = e.heartbeats_succeeded + 1 ∧
        e'.backoff = n.cfg.backoff_min ∧
        e'.quality = min 1 (e.quality + n.cfg.quality_step) ∧
        (n.should_still_be_ignored now e = false →
          Network.get n' now peer = .ok (some e'))) ∧
    (¬ max 0 (e.quality - n.cfg.quality_step) < n.cfg.quality_step / 2 →
      ∃ n', Network.update pw n now peer none ver =
        .ok (n', some (.UpdateQuality peer (max 0 (e.quality - n.cfg.quality_step)))) ∧
      ∃ e', getNetworkPeer n'.db peer = some e' ∧
        e'.heartbeats_sent = e.heartbeats_sent + 1 ∧
        e'.peer_version = ver) := by
  constructor
  · obtain ⟨e', hupd, hlook, hid, hq, hhb, hhs, hls, hlat, hbo, hver, hign, _, _⟩ :=
      update_ok_char pw n now lat peer ver e hme he
    rw [getNetworkPeer_id he] at hupd
    refine ⟨_, hupd, e', hlook, hhb, hver, hls, hlat, hhs, hbo, hq, ?_⟩
    intro hsi
    have hign' : e'.ignored = none := by rw [hign, if_neg (by simp [hsi])]
    have hnotig : Network.should_still_be_ignored
        { n with db := updateNetworkPeer n.db e' } now e' = false := by
      rw [Network.should_still_be_ignored, hign']
    rw [Network.get, if_neg hme]
    rw [show getNetworkPeer (updateNetworkPeer n.db e') peer = some e' from hlook]
    simp [Option.filter, hnotig]
  · intro hcl
    obtain ⟨e', hupd, hlook, hid, hq, hhb, hhs, hls, hlat, hbo, hver⟩ :=
      (update_err_char pw n now peer ver e hme he).2 hcl
    rw [getNetworkPeer_id he] at hupd
    exact ⟨_, hupd, e', hlook, hhb, hver⟩

/-- Closed witness for c3_update_amended on netFull. -/
theorem c3_update_amended_witness :
    (∃ n', Network.update powId netFull 7 1 (some (123/1000)) (some "1.2.4") =
        .ok (n', some (.UpdateQuality 1
          (min 1 (peerFull.quality + netFull.cfg.quality_step)))) ∧
      ∃ e', getNetworkPeer n'.db 1 = some e' ∧
        e'.heartbeats_sent = peerFull.heartbeats_sent + 1 ∧
        e'.peer_version = some "1.2.4" ∧
        e'.last_seen = 7 ∧
        e'.last_seen_latency = 123/1000 ∧
        e'.heartbeats_succeeded = peerFull.heartbeats_succeeded + 1 ∧
        e'.backoff = netFull.cfg.backoff_min ∧
        e'.quality = min 1 (peerFull.quality + netFull.cfg.quality_step) ∧
        (netFull.should_still_be_ignored 7 peerFull = false →
          Network.get n' 7 1 = .ok (some e'))) ∧
    (¬ max 0 (peerFull.quality - netFull.cfg.quality_step) <
        netFull.cfg.quality_step / 2 →
      ∃ n', Network.update powId netFull 7 1 none (some "1.2.4") =
        .ok (n', some (.UpdateQuality 1
          (max 0 (peerFull.quality - netFull.cfg.quality_step)))) ∧
      ∃ e', getNetworkPeer n'.db 1 = some e' ∧
        e'.heartbeats_sent = peerFull.heartbeats_sent + 1 ∧
        e'.peer_version = some "1.2.4") := by
  constructor
  · exact (c3_update_amended powId netFull 7 (123/1000) 1 (some "1.2.4") peerFull
      (by norm_num [netFull]) (by norm_num [netFull, getNetworkPeer, peerFull])).1
  · exact (c3_update_amended powId netFull 7 1 1 (some "1.2.4") peerFull
      (by norm_num [netFull]) (by norm_num [netFull, getNetworkPeer, peerFull])).2

/-! Claim C1: the backoff bounds. -/

/-- One Network::update call preserves the configuration and the identity
and keeps every stored backoff at or above backoff_min (provided
backoff_min is at most backoff_max), because an Ok outcome writes exactly
backoff_min, an Err outcome writes max(backoff_max, powf(...)), and the
CloseConnection and error paths write nothing. -/
theorem applyUpdate_backoff_invariant (pw : Rat → Rat → Rat) (n : Network)
    (u : UpdateCall)
    (hmm : n.cfg.backoff_min ≤ n.cfg.backoff_max)
    (hinv : ∀ e ∈ n.db, n.cfg.backoff_min ≤ e.backoff) :
    (applyUpdate pw n u).cfg = n.cfg ∧
    (applyUpdate pw n u).me = n.me ∧
    (∀ e ∈ (applyUpdate pw n u).db, n.cfg.backoff_min ≤ e.backoff) := by
  by_cases hme : u.peer = n.me
  · rw [applyUpdate, hme, update_self]
    exact ⟨rfl, rfl, hinv⟩
  · cases hgp : getNetworkPeer n.db u.peer with
    | none =>
        rw [applyUpdate, update_unknown pw n u.now u.peer u.ping_result u.version hme hgp]
        exact ⟨rfl, rfl, hinv⟩
    | some e =>
        cases hpr : u.ping_result with
        | some lat =>
            obtain ⟨e', hupd, _, _, _, _, _, _, _, hbo, _, _, _, _⟩ :=
              update_ok_char pw n u.now lat u.peer u.version e hme hgp
            rw [applyUpdate, hpr, hupd]
            refine ⟨rfl, rfl, ?_⟩
            intro x hx
            rcases mem_updateNetworkPeer hx with rfl | hxin
            · rw [hbo]
            · exact hinv x hxin
        | none =>
            by_cases hcl : max 0 (e.quality - n.cfg.quality_step) <
                n.cfg.quality_step / 2
            · rw [applyUpdate, hpr,
                (update_err_char pw n u.now u.peer u.version e hme hgp).1 hcl]
              exact ⟨rfl, rfl, hinv⟩
            · obtain ⟨e', hupd, _, _, _, _, _, _, _, hbo, _⟩ :=
                (update_err_char pw n u.now u.peer u.version e hme hgp).2 hcl
              rw [applyUpdate, hpr, hupd]
              refine ⟨rfl, rfl, ?_⟩
              intro x hx
              rcases mem_updateNetworkPeer hx with rfl | hxin
              · rw [hbo]
                exact le_trans hmm (le_max_left _ _)
              · exact hinv x hxin

/-- The lower backoff bound is preserved by any sequence of update calls. -/
theorem applyUpdates_backoff_invariant (pw : Rat → Rat → Rat)
    (us : List UpdateCall) : ∀ n : Network,
    n.cfg.backoff_min ≤ n.cfg.backoff_max →
    (∀ e ∈ n.db, n.cfg.backoff_min ≤ e.backoff) →
    (applyUpdates pw n us).cfg = n.cfg ∧
    (∀ e ∈ (applyUpdates pw n us).db, n.cfg.backoff_min ≤ e.backoff) := by
  induction us with
  | nil => exact fun n _ hinv => ⟨rfl, hinv⟩
  | cons u us ih =>
      intro n hmm hinv
      obtain ⟨hcfg, _, hinv'⟩ := applyUpdate_backoff_invariant pw n u hmm hinv
      obtain ⟨hcfg2, hfin⟩ := ih (applyUpdate pw n u)
        (by rw [hcfg]; exact hmm) (by rw [hcfg]; exact hinv')
      have hstep : applyUpdates pw n (u :: us) = applyUpdates pw (applyUpdate pw n u) us :=
        rfl
      rw [hstep]
      exact ⟨by rw [hcfg2, hcfg], by rw [hcfg] at hfin; exact hfin⟩

/-- C1 counterexample: in netFull (peer 1 at quality 1, backoff at
backoff_min = 2, exponent 1 so powId is exact f64 powf), one Err update
stores backoff 300 = max(backoff_max, backoff^exponent), whereas the
claimed formula min(backoff_max, backoff^exponent) equals 2; the two
differ, so the claimed Err rule is false on this input. -/
theorem c1_backoff_counterexample :
    ((Network.update powId netFull 5 1 none none).toOption.bind
        (fun x => getNetworkPeer x.fst.db 1)).map (fun e => e.backoff) =
      some 300 ∧
    min cfgEx.backoff_max (powId peerFull.backoff cfgEx.backoff_exponent) = 2 ∧
    (300 : Rat) ≠ 2 := by
  refine ⟨?_, by norm_num [cfgEx, peerFull, powId], by norm_num⟩
  norm_num [Network.update, Network.should_still_be_ignored, getNetworkPeer,
    updateNetworkPeer, netFull, peerFull, cfgEx, powId, Except.toOption]

/-- C1 amended: provided backoff_min is at most backoff_max and every
stored backoff starts at or above backoff_min, every sequence of update
calls keeps all stored backoffs at or above backoff_min; an Ok update
stores exactly backoff_min, and an Err update that does not hit the
CloseConnection path stores exactly max(backoff_max, backoff^
backoff_exponent), a value that is allowed to exceed backoff_max. -/
theorem c1_backoff_amended (pw : Rat → Rat → Rat) (n : Network)
    (hmm : n.cfg.backoff_min ≤ n.cfg.backoff_max)
    (hinv : ∀ e ∈ n.db, n.cfg.backoff_min ≤ e.backoff) :
    (∀ us : List UpdateCall, ∀ e ∈ (applyUpdates pw n us).db,
      n.cfg.backoff_min ≤ e.backoff) ∧
    (∀ (now lat : Rat) (peer : PeerId) (ver : Option String) (e : PeerStatus),
      peer ≠ n.me → getNetworkPeer n.db peer = some e →
      ∃ n' ev, Network.update pw n now peer (some lat) ver = .ok (n', ev) ∧
        ∃ e', getNetworkPeer n'.db peer = some e' ∧
          e'.backoff = n.cfg.backoff_min) ∧
    (∀ (now : Rat) (peer : PeerId) (ver : Option String) (e : PeerStatus),
      peer ≠ n.me → getNetworkPeer n.db peer = some e →
      ¬ max 0 (e.quality - n.cfg.quality_step) < n.cfg.quality_step / 2 →
      ∃ n' ev, Network.update pw n now peer none ver = .ok (n', ev) ∧
        ∃ e', getNetworkPeer n'.db peer = some e' ∧
          e'.backoff = max n.cfg.backoff_max (pw e.backoff n.cfg.backoff_exponent)) := by
  refine ⟨?_, ?_, ?_⟩
  · intro us
    exact (applyUpdates_backoff_invariant pw us n hmm hinv).2
  · intro now lat peer ver e hme he
    obtain ⟨e', hupd, hlook, _, _, _, _, _, _, hbo, _, _, _, _⟩ :=
      update_ok_char pw n now lat peer ver e hme he
    exact ⟨_, _, hupd, e', hlook, hbo⟩
  · intro now peer ver e hme he hcl
    obtain ⟨e', hupd, hlook, _, _, _, _, _, _, hbo, _⟩ :=
      (update_err_char pw n now peer ver e hme he).2 hcl
    exact ⟨_, _, hupd, e', hlook, hbo⟩

/-- Closed witness for c1_backoff_amended on netFull. -/
theorem c1_backoff_amended_witness :
    (∀ us : List UpdateCall, ∀ e ∈ (applyUpdates powId netFull us).db,
      netFull.cfg.backoff_min ≤ e.backoff) ∧
    (∀ (now lat : Rat) (peer : PeerId) (ver : Option String) (e : PeerStatus),
      peer ≠ netFull.me → getNetworkPeer netFull.db peer = some e →
      ∃ n' ev, Network.update powId netFull now peer (some lat) ver = .ok (n', ev) ∧
        ∃ e', getNetworkPeer n'.db peer = some e' ∧
          e'.backoff = netFull.cfg.backoff_min) ∧
    (∀ (now : Rat) (peer : PeerId) (ver : Option String) (e : PeerStatus),
      peer ≠ netFull.me → getNetworkPeer netFull.db peer = some e →
      ¬ max 0 (e.quality - netFull.cfg.quality_step) < netFull.cfg.quality_step / 2 →
      ∃ n' ev, Network.update powId netFull now peer none ver = .ok (n', ev) ∧
        ∃ e', getNetworkPeer n'.db peer = some e' ∧
          e'.backoff = max netFull.cfg.backoff_max
            (powId e.backoff netFull.cfg.backoff_exponent)) :=
  c1_backoff_amended powId netFull
    (by norm_num [netFull, cfgEx])
    (by intro e he; simp [netFull, peerFull] at he; rw [he]; norm_num [netFull, peerFull, cfgEx])

/-! Claim C5: the self identity is never stored. -/

/-- Membership in the record list computed by find_peers_to_ping. -/
theorem mem_peersToPingRecords (pw : Rat → Rat → Rat) (n : Network)
    (threshold : Rat) (e : PeerStatus) :
    e ∈ Network.peersToPingRecords pw n threshold ↔
      e ∈ n.db ∧ e.last_seen ≤ threshold ∧ e.id ≠ n.me ∧
        e.last_seen + Network.pingDelay pw n.cfg e < threshold := by
  unfold Network.peersToPingRecords
  rw [List.Perm.mem_iff (List.perm_insertionSort _ _)]
  simp only [List.mem_filter, Bool.and_eq_true, decide_eq_true_eq]
  tauto

/-- C5: every mutating operation invoked with the node's own identity fails
with DisallowedOperationOnOwnPeerIdError without touching the store, has on
the own identity is vacuously true, the own identity never shows up in the
connected-peers or peers-to-ping queries, and add, remove and update all
preserve the invariant that no stored record is keyed by the own identity. -/
theorem c5_self_never_stored (pw : Rat → Rat → Rat) (n : Network) (now : Rat)
    (peer : PeerId) (origin : PeerOrigin) (addrs : List Nat)
    (res : Option Rat) (ver : Option String) (threshold : Rat)
    (hinv : ∀ e ∈ n.db, e.id ≠ n.me) :
    Network.add n now n.me origin addrs =
      .error .DisallowedOperationOnOwnPeerIdError ∧
    Network.remove n n.me = .error .DisallowedOperationOnOwnPeerIdError ∧
    Network.update pw n now n.me res ver =
      .error .DisallowedOperationOnOwnPeerIdError ∧
    Network.has n now n.me = true ∧
    n.me ∉ network_connected_peers n ∧
    n.me ∉ Network.find_peers_to_ping pw n threshold ∧
    (∀ n', Network.add n now peer origin addrs = .ok n' →
      ∀ e ∈ n'.db, e.id ≠ n.me) ∧
    (∀ n', Network.remove n peer = .ok n' → ∀ e ∈ n'.db, e.id ≠ n.me) ∧
    (∀ n' ev, Network.update pw n now peer res ver = .ok (n', ev) →
      ∀ e ∈ n'.db, e.id ≠ n.me) := by
  refine ⟨?_, ?_, ?_, ?_, ?_, ?_, ?_, ?_, ?_⟩
  · rw [Network.add, if_pos rfl]
  · rw [Network.remove, if_pos rfl]
  · exact update_self pw n now res ver
  · rw [Network.has]
    simp
  · intro hmem
    simp only [network_connected_peers, Network.peer_filter,
      List.mem_filterMap, Option.some.injEq] at hmem
    obtain ⟨e, he, hid⟩ := hmem
    exact hinv e he hid
  · intro hmem
    obtain ⟨x, hx, hxid⟩ := List.mem_map.mp hmem
    obtain ⟨_, _, hxme, _⟩ := (mem_peersToPingRecords pw n threshold x).mp hx
    exact hxme hxid
  · intro n' hadd
    by_cases hpm : peer = n.me
    · rw [Network.add, if_pos hpm] at hadd
      cases hadd
    · rw [Network.add, if_neg hpm] at hadd
      cases hgp : getNetworkPeer n.db peer with
      | some ps =>
          simp only [hgp] at hadd
          by_cases hig : n.should_still_be_ignored now ps = true
          · rw [if_neg (by simp [hig])] at hadd
            injection hadd with hadd'
            rw [← hadd']
            exact hinv
          · rw [if_pos (by simp [hig])] at hadd
            injection hadd with hadd'
            intro e he
            rw [← hadd'] at he
            rcases mem_updateNetworkPeer he with rfl | hein
            · show ps.id ≠ n.me
              rw [getNetworkPeer_id hgp]
              exact hpm
            · exact hinv e hein
      | none =>
          simp only [hgp] at hadd
          injection hadd with hadd'
          intro e he
          rw [← hadd'] at he
          simp only [addNetworkPeer, List.mem_append, List.mem_singleton] at he
          rcases he with hein | rfl
          · exact hinv e hein
          · exact hpm
  · intro n' hrem
    by_cases hpm : peer = n.me
    · rw [Network.remove, if_pos hpm] at hrem
      cases hrem
    · rw [Network.remove, if_neg hpm] at hrem
      injection hrem with hrem'
      intro e he
      rw [← hrem'] at he
      exact hinv e (List.mem_of_mem_filter he)
  · intro n' ev hupd
    by_cases hpm : peer = n.me
    · rw [hpm, update_self] at hupd
      cases hupd
    · cases hgp : getNetworkPeer n.db peer with
      | none =>
          rw [update_unknown pw n now peer res ver hpm hgp] at hupd
          injection hupd with hupd'
          injection hupd' with h3 h4
          rw [← h3]
          exact hinv
      | some e =>
          cases res with
          | some lat =>
              obtain ⟨e', hu, _, hid, _⟩ :=
                update_ok_char pw n now lat peer ver e hpm hgp
              rw [hu] at hupd
              injection hupd with hupd'
              injection hupd' with h3 h4
              intro x hx
              rw [← h3] at hx
              rcases mem_updateNetworkPeer hx with rfl | hxin
              · rw [hid, getNetworkPeer_id hgp]
                exact hpm
              · exact hinv x hxin
          | none =>
              by_cases hcl : max 0 (e.quality - n.cfg.quality_step) <
                  n.cfg.quality_step / 2
              · rw [(update_err_char pw n now peer ver e hpm hgp).1 hcl] at hupd
                injection hupd with hupd'
                injection hupd' with h3 h4
                rw [← h3]
                exact hinv
              · obtain ⟨e', hu, _, hid, _⟩ :=
                  (update_err_char pw n now peer ver e hpm hgp).2 hcl
                rw [hu] at hupd
                injection hupd with hupd'
                injection hupd' with h3 h4
                intro x hx
                rw [← h3] at hx
                rcases mem_updateNetworkPeer hx with rfl | hxin
                · rw [hid, getNetworkPeer_id hgp]
                  exact hpm
                · exact hinv x hxin

/-- Closed witness for c5_self_never_stored on netFull (self id 0, stored
peer id 1). -/
theorem c5_self_never_stored_witness :
    Network.add netFull 5 netFull.me .IncomingConnection [] =
      .error .DisallowedOperationOnOwnPeerIdError ∧
    Network.remove netFull netFull.me =
      .error .DisallowedOperationOnOwnPeerIdError ∧
    Network.update powId netFull 5 netFull.me none none =
      .error .DisallowedOperationOnOwnPeerIdError ∧
    Network.has netFull 5 netFull.me = true ∧
    netFull.me ∉ network_connected_peers netFull ∧
    netFull.me ∉ Network.find_peers_to_ping powId netFull 9 ∧
    (∀ n', Network.add netFull 5 1 .IncomingConnection [] = .ok n' →
      ∀ e ∈ n'.db, e.id ≠ netFull.me) ∧
    (∀ n', Network.remove netFull 1 = .ok n' → ∀ e ∈ n'.db, e.id ≠ netFull.me) ∧
    (∀ n' ev, Network.update powId netFull 5 1 none none = .ok (n', ev) →
      ∀ e ∈ n'.db, e.id ≠ netFull.me) :=
  c5_self_never_stored powId netFull 5 1 .IncomingConnection [] none none 9
    (by intro e he; simp [netFull, peerFull] at he; rw [he]; norm_num [netFull, peerFull])

/-! Claim C6: find_peers_to_ping. -/

/-- C6 counterexample: in netHalf (peer 1 with backoff 3/2, min_delay 1,
max_delay 300, exponent 1 so powId is exact f64 powf), the code truncates
powf(3/2, 1) = 3/2 to the u32 value 1 and therefore returns peer 1 at
threshold 6/5, although the claimed real-valued formula gives delay 3/2,
under which last_seen + delay is not below the threshold and the peer ought
to be excluded. -/
theorem c6_find_peers_counterexample :
    Network.find_peers_to_ping powId netHalf (6/5) = [1] ∧
    peerHalf ∈ netHalf.db ∧
    ¬ (peerHalf.last_seen + pingDelayClaimC6 powId netHalf.cfg peerHalf < 6/5) := by
  refine ⟨?_, by simp [netHalf, netFull], ?_⟩
  · have hf : (⌊(3:ℚ)/2⌋ : Int) = 1 := by
      rw [Int.floor_eq_iff]
      norm_num
    norm_num [Network.find_peers_to_ping, Network.peersToPingRecords,
      Network.pingDelay, Network.castU32, netHalf, netFull, peerHalf, peerFull,
      cfgEx, powId, hf, List.insertionSort, List.orderedInsert,
      Network.lastSeenLE, List.filter_cons]
  · norm_num [pingDelayClaimC6, netHalf, netFull, peerHalf, peerFull, cfgEx, powId]

/-- C6 amended: find_peers_to_ping returns the ids of exactly the stored
non-self records with last_seen + effective_delay < threshold, where
effective_delay truncates powf(backoff, backoff_exponent) to a saturating
u32 before the multiplication, that is effective_delay =
min(min_delay * u32(backoff^backoff_exponent), max_delay); the ids are
listed in ascending last_seen order. -/
theorem c6_find_peers_amended (pw : Rat → Rat → Rat) (n : Network)
    (threshold : Rat)
    (hmind : 0 ≤ n.cfg.min_delay) (hmaxd : 0 ≤ n.cfg.max_delay) :
    Network.find_peers_to_ping pw n threshold =
      (Network.peersToPingRecords pw n threshold).map (fun e => e.id) ∧
    (Network.peersToPingRecords pw n threshold).Pairwise Network.lastSeenLE ∧
    (∀ e, e ∈ Network.peersToPingRecords pw n threshold ↔
      e ∈ n.db ∧ e.id ≠ n.me ∧
        e.last_seen + Network.pingDelay pw n.cfg e < threshold) := by
  refine ⟨rfl, ?_, ?_⟩
  · unfold Network.peersToPingRecords
    exact List.sorted_insertionSort _ _
  · intro e
    rw [mem_peersToPingRecords]
    constructor
    · rintro ⟨h1, _, h3, h4⟩
      exact ⟨h1, h3, h4⟩
    · rintro ⟨h1, h3, h4⟩
      have hd : 0 ≤ Network.pingDelay pw n.cfg e :=
        le_min (mul_nonneg hmind (Nat.cast_nonneg _)) hmaxd
      exact ⟨h1, le_of_lt (lt_of_le_of_lt (le_add_of_nonneg_right hd) h4), h3, h4⟩

/-- Closed witness for c6_find_peers_amended on netHalf. -/
theorem c6_find_peers_amended_witness :
    Network.find_peers_to_ping powId netHalf (6/5) =
      (Network.peersToPingRecords powId netHalf (6/5)).map (fun e => e.id) ∧
    (Network.peersToPingRecords powId netHalf (6/5)).Pairwise Network.lastSeenLE ∧
    (∀ e, e ∈ Network.peersToPingRecords powId netHalf (6/5) ↔
      e ∈ netHalf.db ∧ e.id ≠ netHalf.me ∧
        e.last_seen + Network.pingDelay powId netHalf.cfg e < 6/5) :=
  c6_find_peers_amended powId netHalf (6/5)
    (by norm_num [netHalf, netFull, cfgEx])
    (by norm_num [netHalf, netFull, cfgEx])

end HoprSpec
